import Mathlib

/-!
Shallow embedding of the HWPX table pipeline of this repository: the
namespace-tolerant XML tag lookups and package extraction loops
(src/hwpx_app.py, src/hwpx_to_excel_by_dong.py), the section ("dong")
groupers, the floor-band capture state machine of `make_excel_bytes`
(src/hwpx_app.py), and the keyword floor filters (`filter_by_floor_range`
in src/hwpx_app.py and the band loop of `split_by_floor_ranges` in
src/split_by_floor.py).

Modelling conventions: Python `\d` and `\s` are modelled over their ASCII
ranges, cell values are strings (pandas NaN padding of ragged rows is out
of scope; sections are treated as rectangular grids of string cells), and
Python `int` applied to a digit run is `digitsToNat`.
-/

/-- A table row: the ordered cell texts. -/
abbrev Row := List String

/-- ASCII whitespace, the core of Python's `\s` character class. -/
def isSpaceC (c : Char) : Bool :=
  c = ' ' || c = '\t' || c = '\n' || c = '\r' || c = '\x0b' || c = '\x0c'

/-- Drop the longest whitespace run at the front (a greedy `\s*`). -/
def dropSpaces : List Char → List Char
  | [] => []
  | c :: rest => if isSpaceC c then dropSpaces rest else c :: rest

/-- Split off the longest ASCII digit run at the front (a greedy `\d+`/`\d*`). -/
def takeDigits : List Char → List Char × List Char
  | [] => ([], [])
  | c :: rest =>
    if c.isDigit then
      let (ds, r) := takeDigits rest
      (c :: ds, r)
    else ([], c :: rest)

/-- Python's substring test `needle in hay`. -/
def hasSub (needle : List Char) : List Char → Bool
  | [] => needle.isEmpty
  | c :: rest => needle.isPrefixOf (c :: rest) || hasSub needle rest

/-- Python `int` on a (nonempty) decimal digit run. -/
def digitsToNat (ds : List Char) : Nat :=
  ds.foldl (fun a c => a * 10 + (c.toNat - 48)) 0

/-- Leftmost-position regex search: try a match at every start position in
order, as `re.search` does. -/
def searchFirst (f : List Char → Option (List Char)) (l : List Char) : Option (List Char) :=
  match l with
  | [] => f []
  | _ :: rest =>
    match f l with
    | some x => some x
    | none => searchFirst f rest

/-- Existence of a match at some start position (truth value of `re.search`). -/
def anyPos (f : List Char → Bool) (l : List Char) : Bool :=
  match l with
  | [] => f []
  | _ :: rest => f l || anyPos f rest

/-- One anchored attempt of `(\d+)동`: a maximal digit run immediately
followed by 동 (backtracking inside `\d+` cannot help, since a shortened run
is followed by a digit, not 동). Returns the digit run, i.e. group 1. -/
def dongMatchAt (l : List Char) : Option (List Char) :=
  let (ds, rest) := takeDigits l
  match ds, rest with
  | _ :: _, '동' :: _ => some ds
  | _, _ => none

/-- `re.search(r'(\d+)동', s)`: group 1 of the leftmost match, if any. -/
def dongSearch (l : List Char) : Option (List Char) :=
  searchFirst dongMatchAt l

/-- Anchored `\d+층`: a nonempty maximal digit run immediately followed by 층. -/
def cheungAfterDigits (l : List Char) : Bool :=
  let (gs, r) := takeDigits l
  match gs, r with
  | _ :: _, '층' :: _ => true
  | _, _ => false

/-- Anchored `(지하|B)\s*\d+층`. -/
def basementAfterDong (t : List Char) : Bool :=
  match t with
  | '지' :: '하' :: r => cheungAfterDigits (dropSpaces r)
  | 'B' :: r => cheungAfterDigits (dropSpaces r)
  | _ => false

/-- One anchored attempt of `\d+동\s*\d+층|\d+동\s*(지하|B)\s*\d+층`. -/
def boundaryMatchAt (l : List Char) : Bool :=
  let (ds, rest) := takeDigits l
  match ds, rest with
  | _ :: _, '동' :: tail =>
    let t := dropSpaces tail
    cheungAfterDigits t || basementAfterDong t
  | _, _ => false

/-- The floor-boundary test `re.search(r'\d+동\s*\d+층|\d+동\s*(지하|B)\s*\d+층', row_text)`. -/
def boundaryPat (t : List Char) : Bool :=
  anyPos boundaryMatchAt t

/-- One anchored attempt of `\d+동\s*(지하|B)\s*{n}층`, where `{n}층` is the
literal decimal rendering of the target floor followed by 층 (backtracking in
the final `\s*` cannot help, since the literal starts with a digit). -/
def basementEntryAt (n : Nat) (l : List Char) : Bool :=
  let (ds, rest) := takeDigits l
  match ds, rest with
  | _ :: _, '동' :: tail =>
    match dropSpaces tail with
    | '지' :: '하' :: r => (Nat.repr n ++ "층").data.isPrefixOf (dropSpaces r)
    | 'B' :: r => (Nat.repr n ++ "층").data.isPrefixOf (dropSpaces r)
    | _ => false
  | _, _ => false

/-- The basement boundary-entry test `re.search(rf'\d+동\s*(지하|B)\s*{floor_num}층', row_text)`. -/
def basementEntry (n : Nat) (t : List Char) : Bool :=
  anyPos (basementEntryAt n) t

/-- One anchored attempt of `\d+동\s*(\d+)층`, returning group 1. -/
def groundMatchAt (l : List Char) : Option (List Char) :=
  let (ds, rest) := takeDigits l
  match ds, rest with
  | _ :: _, '동' :: tail =>
    let t := dropSpaces tail
    let (gs, r) := takeDigits t
    match gs, r with
    | _ :: _, '층' :: _ => some gs
    | _, _ => none
  | _, _ => none

/-- `re.search(rf'\d+동\s*(\d+)층', row_text)`: group 1 of the leftmost match. -/
def groundSearch (t : List Char) : Option (List Char) :=
  searchFirst groundMatchAt t

/-- Row text of `make_excel_bytes`: cells joined by a single space. -/
def joinCells : List String → List Char
  | [] => []
  | [c] => c.data
  | c :: rest => c.data ++ ' ' :: joinCells rest

/-- The two elevation-drawing skip keywords of `make_excel_bytes`. -/
def skipKw (t : List Char) : Bool :=
  hasSub "정면도".data t || hasSub "배면도".data t

/-- The `exclude_keywords` list of `make_excel_bytes`, verbatim (note the
internal spaces in 번 호, 부   위 and 부 재). -/
def exclude_keywords : List String :=
  ["부록", "외관조사망도", "참조", "번 호", "부   위", "부 재", "폭", "mm", "길이", "개소", "EA"]

/-- The exclusion filter `any(k in row_text for k in exclude_keywords)`. -/
def excludeKw (t : List Char) : Bool :=
  exclude_keywords.any (fun k => hasSub k.data t)

/-- The ground boundary-entry test of `make_excel_bytes`: a `\d+동\s*(\d+)층`
match whose group 1 equals the target floor, on a row text containing neither
지하 nor B. -/
def groundEntryHit (n : Nat) (t : List Char) : Bool :=
  match groundSearch t with
  | some gs =>
    if !(hasSub "지하".data t) && !(hasSub "B".data t) then digitsToNat gs == n
    else false
  | none => false

/-- The band kind of a floor-range spec (floor_type 지상 / 지하). -/
inductive FloorType where
  | ground
  | basement
deriving DecidableEq, Repr

/-- The two loop-carried booleans of the `make_excel_bytes` row scan. -/
structure ScanState where
  capturing : Bool
  skipping : Bool
deriving DecidableEq, Repr

/-- Outcome of one iteration of the `make_excel_bytes` row loop: continue with
a possibly captured row and a new state, or break out of the loop. -/
inductive StepOut where
  | go (captured : Bool) (st : ScanState)
  | brk
deriving DecidableEq, Repr

/-- One iteration of the row loop of `make_excel_bytes` for floor number `n`:
skip detection, skip release on a boundary match, the skip gate, the exclusion
filter, then the kind-dependent boundary-entry / boundary-exit / passive
capture logic, in source order. -/
def floorStep (ft : FloorType) (n : Nat) (st : ScanState) (r : Row) : StepOut :=
  let t := joinCells r
  if skipKw t then .go false ⟨st.capturing, true⟩
  else
    let sk := if boundaryPat t then false else st.skipping
    if sk then .go false ⟨st.capturing, sk⟩
    else if excludeKw t then .go false ⟨st.capturing, sk⟩
    else
      match ft with
      | .basement =>
        if basementEntry n t then .go true ⟨true, sk⟩
        else if st.capturing && boundaryPat t then .brk
        else .go st.capturing ⟨st.capturing, sk⟩
      | .ground =>
        if groundEntryHit n t then .go true ⟨true, sk⟩
        else if st.capturing && boundaryPat t then .brk
        else .go st.capturing ⟨st.capturing, sk⟩

/-- The full row scan of `make_excel_bytes` for one floor number: the ordered
list of captured rows (`floor_rows`). -/
def floorScan (ft : FloorType) (n : Nat) (st : ScanState) : List Row → List Row
  | [] => []
  | r :: rest =>
    match floorStep ft n st r with
    | .brk => []
    | .go cap st' => (if cap then [r] else []) ++ floorScan ft n st' rest

/-- Python `range(s, e + 1)`. -/
def floorRange (s e : Nat) : List Nat :=
  List.range' s (e + 1 - s)

/-- The rows captured for one floor-range spec by `make_excel_bytes`:
`floor_rows` of every floor number in `[start, end]`, concatenated
(each inner loop restarts with `capturing = skip_section = False`). -/
def bandRowsApp (ft : FloorType) (s e : Nat) (allRows : List Row) : List Row :=
  ((floorRange s e).map (fun n => floorScan ft n ⟨false, false⟩ allRows)).flatten

/-- The synthetic band title row `["[ name ]"] + [''] * (width - 1)`. -/
def titleRow (name : String) (w : Nat) : Row :=
  ("[ " ++ name ++ " ]") :: List.replicate (w - 1) ""

/-- A blank separator row `[''] * width`. -/
def emptyRow (w : Nat) : Row :=
  List.replicate w ""

/-- `df.shape[1]` of a section: the maximal row width. -/
def maxWidth (rows : List Row) : Nat :=
  rows.foldl (fun a r => max a r.length) 0

/-- A floor-range spec as `make_excel_bytes` consumes it:
(floor_name, floor_type, start_floor, end_floor). -/
abbrev AppSpec := String × FloorType × Nat × Nat

/-- The `combined_data` assembly of `make_excel_bytes` for one section: per
spec, a title row followed by the captured band rows (`if floor_rows:` merely
skips extending by an empty list, which is a no-op). -/
def combinedDataApp (w : Nat) (specs : List AppSpec) (allRows : List Row) : List Row :=
  specs.foldl
    (fun acc sp => acc ++ (titleRow sp.1 w :: bandRowsApp sp.2.1 sp.2.2.1 sp.2.2.2 allRows)) []

/-- The numeric-floor substring test of the keyword filters:
`f"{floor_num}층" in row_text or f"[ {floor_num}층" in row_text` for some
floor in `range(start, end + 1)` (the loop's break makes it a single append). -/
def numericHit (s e : Nat) (t : List Char) : Bool :=
  (floorRange s e).any
    (fun n => hasSub (Nat.repr n ++ "층").data t || hasSub ("[ " ++ Nat.repr n ++ "층").data t)

/-- The rooftop/roof keyword test `any(kw in row_text for kw in ["옥탑", "지붕"])`. -/
def rooftopKw (t : List Char) : Bool :=
  hasSub "옥탑".data t || hasSub "지붕".data t

/-- One iteration of the row loop in the band extraction of
`split_by_floor_ranges`: the numeric-floor substring append, then the
rooftop/roof addendum with its full-row-equality membership test, applied if
`end_floor >= 15`. -/
def splitRowStep (s e : Nat) (acc : List Row) (r : Row) : List Row :=
  let t := joinCells r
  let acc1 := if numericHit s e t then acc ++ [r] else acc
  if 15 ≤ e ∧ rooftopKw t = true ∧ r ∉ acc1 then acc1 ++ [r] else acc1

/-- The `floor_rows` computed for one band by `split_by_floor_ranges`. -/
def splitFloorRows (s e : Nat) (rows : List Row) : List Row :=
  rows.foldl (splitRowStep s e) []

/-- The `filter_by_floor_range` function of src/hwpx_app.py: same structure as
the `split_by_floor_ranges` band loop, but its row text drops falsy (empty)
cells. -/
def filter_by_floor_range (rows : List Row) (s e : Nat) : List Row :=
  rows.foldl
    (fun acc r =>
      let t := joinCells (r.filter (fun c => c ≠ ""))
      let acc1 := if numericHit s e t then acc ++ [r] else acc
      if 15 ≤ e ∧ rooftopKw t = true ∧ r ∉ acc1 then acc1 ++ [r] else acc1) []

/-- A band spec as `split_by_floor_ranges` consumes it:
(floor_name, start_floor, end_floor) — its config has no floor_type. -/
abbrev SplitSpec := String × Nat × Nat

/-- The `combined_data` assembly of `split_by_floor_ranges` for one sheet: per
band, a title row, the captured rows, and an unconditional blank separator row. -/
def combinedDataSplit (w : Nat) (specs : List SplitSpec) (rows : List Row) : List Row :=
  specs.foldl
    (fun acc sp => acc ++ (titleRow sp.1 w :: splitFloorRows sp.2.1 sp.2.2 rows) ++ [emptyRow w]) []

/-- The section map under construction: section identifier to its ordered row
list, in insertion order (a Python dict). -/
abbrev DMap := List (String × List Row)

/-- Dict lookup. -/
def lookupA : DMap → String → Option (List Row)
  | [], _ => none
  | (k, v) :: rest, key => if k = key then some v else lookupA rest key

/-- `if key not in dong_data: dong_data[key] = []`. -/
def insertIfAbsent (m : DMap) (k : String) : DMap :=
  if (lookupA m k).isSome then m else m ++ [(k, [])]

/-- `dong_data[key].append(row)` (no-op on a missing key; the groupers only
append to the current key, which they have always inserted first). -/
def appendAt : DMap → String → Row → DMap
  | [], _, _ => []
  | (k, v) :: rest, key, r =>
    if k = key then (k, v ++ [r]) :: rest else (k, v) :: appendAt rest key r

/-- One row of `group_by_dong` (src/hwpx_app.py): search `(\d+)동` in the
joined row text; on a match switch the current section (creating it if new);
then append the row to the current section if one exists. -/
def group_by_dong_step (st : DMap × Option String) (r : Row) : DMap × Option String :=
  let st1 :=
    match dongSearch (joinCells r) with
    | some ds =>
      let cd := String.mk ds ++ "동"
      (insertIfAbsent st.1 cd, some cd)
    | none => st
  match st1.2 with
  | some cd => (appendAt st1.1 cd r, some cd)
  | none => st1

/-- The `group_by_dong` function of src/hwpx_app.py over the table list. -/
def group_by_dong (all_tables : List (List Row)) : DMap :=
  (all_tables.foldl (fun st tb => tb.foldl group_by_dong_step st) ([], none)).1

/-- One cell of the inner marker scan of `group_data_by_dong`
(src/hwpx_to_excel_by_dong.py): every matching cell switches the current
section in turn. -/
def dongCellStep (st : DMap × Option String) (c : String) : DMap × Option String :=
  match dongSearch c.data with
  | some ds =>
    let cd := String.mk ds ++ "동"
    (insertIfAbsent st.1 cd, some cd)
  | none => st

/-- One row of `group_data_by_dong`: scan all cells for markers, then append
the row to the current section if one exists. -/
def group_row_step_dong (st : DMap × Option String) (r : Row) : DMap × Option String :=
  let st1 := r.foldl dongCellStep st
  match st1.2 with
  | some cd => (appendAt st1.1 cd r, some cd)
  | none => st1

/-- A table entry of `extract_tables_from_hwpx` in
src/hwpx_to_excel_by_dong.py: {'section': ..., 'table_index': ..., 'data': ...}. -/
abbrev TaggedTable := String × Nat × List Row

/-- The `group_data_by_dong` function of src/hwpx_to_excel_by_dong.py. -/
def group_data_by_dong (tables_data : List TaggedTable) : DMap :=
  (tables_data.foldl (fun st ti => ti.2.2.foldl group_row_step_dong st) ([], none)).1

/-- An XML tag, either unqualified or qualified by the fixed hwp namespace. -/
inductive XTag where
  | unq (name : String)
  | ns (name : String)
deriving DecidableEq, Repr

/-- A parsed XML element: tag, optional literal text, children in document
order. -/
inductive Xml where
  | elem (tag : XTag) (text : Option String) (children : List Xml)

/-- The tag of an element. -/
def tagOf : Xml → XTag
  | .elem tg _ _ => tg

/-- The literal text of an element (`t.text`). -/
def elemText : Xml → Option String
  | .elem _ tx _ => tx

mutual

/-- `parent.findall('.//tag')`: all strict descendants with the given tag, in
document order. -/
def findDesc (t : XTag) : Xml → List Xml
  | .elem _ _ cs => findDescList t cs

/-- Descendant search over a forest. -/
def findDescList (t : XTag) : List Xml → List Xml
  | [] => []
  | c :: rest => findSelf t c ++ findDescList t rest

/-- Self-or-descendant search below a parent. -/
def findSelf (t : XTag) : Xml → List Xml
  | .elem tg tx cs => (if tg = t then [Xml.elem tg tx cs] else []) ++ findDescList t cs

end

/-- The `find_elements` helper of src/hwpx_app.py: unqualified lookup first,
namespace-qualified retry only when it found nothing. -/
def find_elements (parent : Xml) (tag : String) : List Xml :=
  let es := findDesc (.unq tag) parent
  if es.isEmpty then findDesc (.ns tag) parent else es

/-- The tbl lookup of `extract_tables_from_hwpx` in
src/hwpx_to_excel_by_dong.py: namespace-qualified lookup first, unqualified
retry only when it found nothing. -/
def tblLookup_dong (root : Xml) : List Xml :=
  let ts := findDesc (.ns "tbl") root
  if ts.isEmpty then findDesc (.unq "tbl") root else ts

/-- The tr lookup of `extract_table_data` in src/hwpx_to_excel_by_dong.py:
unqualified first. -/
def trLookup_dong (e : Xml) : List Xml :=
  let rs := findDesc (.unq "tr") e
  if rs.isEmpty then findDesc (.ns "tr") e else rs

/-- The tc lookup of `extract_table_data` in src/hwpx_to_excel_by_dong.py:
unqualified first. -/
def tcLookup_dong (e : Xml) : List Xml :=
  let cs := findDesc (.unq "tc") e
  if cs.isEmpty then findDesc (.ns "tc") e else cs

/-- Python `str.strip()` over the ASCII whitespace class. -/
def pyStrip (s : String) : String :=
  String.mk (((s.data.dropWhile fun c => isSpaceC c).reverse.dropWhile fun c => isSpaceC c).reverse)

/-- The `extract_text_from_element` function of src/hwpx_to_excel_by_dong.py:
collect truthy texts of the unqualified t lookup, then ALSO of the qualified t
lookup, unconditionally, and join with single spaces. -/
def extract_text_from_element (e : Xml) : String :=
  String.intercalate " "
    ((((findDesc (.unq "t") e).filterMap elemText).filter (fun s => s ≠ "")) ++
      (((findDesc (.ns "t") e).filterMap elemText).filter (fun s => s ≠ "")))

/-- The `get_text` helper of src/hwpx_app.py: truthy texts of the tolerant t
lookup, joined with single spaces. -/
def get_text (e : Xml) : String :=
  String.intercalate " " (((find_elements e "t").filterMap elemText).filter (fun s => s ≠ ""))

/-- The `extract_table_data` function of src/hwpx_app.py: one row per tr, the
stripped cell texts per tc, rows with an empty cell list dropped. -/
def extract_table_data (table : Xml) : List Row :=
  ((find_elements table "tr").map
      (fun row => (find_elements row "tc").map (fun c => pyStrip (get_text c)))).filter
    (fun rd => rd ≠ [])

/-- The `extract_table_data` function of src/hwpx_to_excel_by_dong.py. -/
def extract_table_data_dong (table : Xml) : List Row :=
  ((trLookup_dong table).map
      (fun row => (tcLookup_dong row).map (fun c => pyStrip (extract_text_from_element c)))).filter
    (fun rd => rd ≠ [])

/-- Tables of one parsed section entry in src/hwpx_app.py: nonempty table
grids only. -/
def tablesOfRootApp (root : Xml) : List (List Row) :=
  (find_elements root "tbl").filterMap
    (fun tb => let d := extract_table_data tb; if d = [] then none else some d)

/-- Tables of one parsed section entry in src/hwpx_to_excel_by_dong.py:
nonempty table grids with the entry name and the enumeration index. -/
def tablesOfRootDong (entryName : String) (root : Xml) : List TaggedTable :=
  (tblLookup_dong root).enum.filterMap
    (fun p =>
      let d := extract_table_data_dong p.2
      if d = [] then none else some (entryName, p.1, d))

/-- The body of a package entry: either well-formed XML (already parsed) or a
malformed entry on which `ET.parse` raises. -/
inductive EntryBody where
  | xml (root : Xml)
  | malformed

/-- A package entry: path and body. -/
abbrev ZEntry := String × EntryBody

/-- The content-entry filter `f.startswith('Contents/section')`. -/
def isSectionEntry (e : ZEntry) : Bool :=
  "Contents/section".data.isPrefixOf e.1.data

/-- The entry loop of `extract_tables_from_hwpx` in src/hwpx_app.py: no
exception handling, so a malformed entry aborts with the underlying parse
error (which carries no entry name). -/
def extractLoopApp (acc : List (List Row)) : List ZEntry → Except Unit (List (List Row))
  | [] => .ok acc
  | e :: rest =>
    match e.2 with
    | .malformed => .error ()
    | .xml root => extractLoopApp (acc ++ tablesOfRootApp root) rest

/-- The `extract_tables_from_hwpx` function of src/hwpx_app.py. -/
def extract_tables_from_hwpx (entries : List ZEntry) : Except Unit (List (List Row)) :=
  extractLoopApp [] (entries.filter isSectionEntry)

/-- The entry loop of `extract_tables_from_hwpx` in
src/hwpx_to_excel_by_dong.py: the whole loop sits under
`try ... except Exception: print(...)`, so the first malformed entry stops the
loop and the accumulated `tables_data` is returned as the result. -/
def extractLoopDong (acc : List TaggedTable) : List ZEntry → List TaggedTable
  | [] => acc
  | e :: rest =>
    match e.2 with
    | .malformed => acc
    | .xml root => extractLoopDong (acc ++ tablesOfRootDong e.1 root) rest

/-- The `extract_tables_from_hwpx` function of src/hwpx_to_excel_by_dong.py. -/
def extract_tables_from_hwpx_dong (entries : List ZEntry) : List TaggedTable :=
  extractLoopDong [] (entries.filter isSectionEntry)

/-- Rename the tag of an element nodewise to its namespace-qualified form (the
counterpart document a producer emitting qualified tags would write). -/
def qualifyTag : XTag → XTag
  | .unq n => .ns n
  | .ns n => .ns n

mutual

/-- The namespace-qualified counterpart of a document. -/
def qualify : Xml → Xml
  | .elem tg tx cs => .elem (qualifyTag tg) tx (qualifyList cs)

/-- Qualify a forest. -/
def qualifyList : List Xml → List Xml
  | [] => []
  | c :: rest => qualify c :: qualifyList rest

end

/-- Whether a tag is unqualified. -/
def isUnqTag : XTag → Bool
  | .unq _ => true
  | .ns _ => false

mutual

/-- Whether a document uses only unqualified tags. -/
def allUnq : Xml → Bool
  | .elem tg _ cs => isUnqTag tg && allUnqList cs

/-- `allUnq` over a forest. -/
def allUnqList : List Xml → Bool
  | [] => true
  | c :: rest => allUnq c && allUnqList rest

end

/-- Modelled from the spec: the tag-lookup strategy as the specification words
it — "attempt the unqualified tag first, and only if no matches are found,
retry with the namespace-qualified tag" — for comparison against the lookups
the source actually performs. -/
def specTolerantLookup (tag : String) (parent : Xml) : List Xml :=
  let es := findDesc (.unq tag) parent
  if es.isEmpty then findDesc (.ns tag) parent else es

/-- Modelled from the spec: cell text extraction using `specTolerantLookup`
for the text runs, as the specification describes it. -/
def specTolerantText (e : Xml) : String :=
  String.intercalate " "
    (((specTolerantLookup "t" e).filterMap elemText).filter (fun s => s ≠ ""))

/-! Floor-band capture machine: lemmas and claims C5, C6, C7, C10. -/

/-- A row can only be newly captured or passively captured after passing the
exclusion filter. -/
theorem floorStep_captured_not_excluded (ft : FloorType) (n : Nat) (st : ScanState) (r : Row)
    (st' : ScanState) (h : floorStep ft n st r = .go true st') :
    excludeKw (joinCells r) = false := by
  cases hex : excludeKw (joinCells r) with
  | false => rfl
  | true =>
    exfalso
    unfold floorStep at h
    cases ft <;> cases hsk : skipKw (joinCells r) <;> cases hb : boundaryPat (joinCells r) <;>
      cases hss : st.skipping <;> simp_all

/-- From a non-capturing state, the ground branch captures a row only through
the boundary-entry test. -/
theorem floorStep_ground_new_capture (n : Nat) (st : ScanState) (r : Row) (st' : ScanState)
    (hc : st.capturing = false) (h : floorStep .ground n st r = .go true st') :
    groundEntryHit n (joinCells r) = true := by
  cases hg : groundEntryHit n (joinCells r) with
  | true => rfl
  | false =>
    exfalso
    unfold floorStep at h
    cases hsk : skipKw (joinCells r) <;> cases hb : boundaryPat (joinCells r) <;>
      cases hss : st.skipping <;> simp_all

/-- Unfolding of a successful ground boundary-entry test. -/
theorem groundEntryHit_spec (n : Nat) (t : List Char) (h : groundEntryHit n t = true) :
    (∃ gs, groundSearch t = some gs ∧ digitsToNat gs = n) ∧
      hasSub "지하".data t = false ∧ hasSub "B".data t = false := by
  unfold groundEntryHit at h
  cases hgs : groundSearch t with
  | none => rw [hgs] at h; simp at h
  | some gs =>
    rw [hgs] at h
    by_cases hj : hasSub "지하".data t = true <;>
      by_cases hb : hasSub "B".data t = true <;> simp [hj, hb] at h ⊢
    all_goals exact h

/-- While `skipping` is set, a run of rows none of which matches a floor
boundary contributes nothing to the scan and leaves the state unchanged. -/
theorem floorScan_skip_segment (ft : FloorType) (n : Nat) (c : Bool) (L rest : List Row)
    (hL : ∀ x ∈ L, boundaryPat (joinCells x) = false) :
    floorScan ft n ⟨c, true⟩ (L ++ rest) = floorScan ft n ⟨c, true⟩ rest := by
  induction L with
  | nil => rfl
  | cons x L ih =>
    have hb := hL x (by simp)
    have hstep : floorStep ft n ⟨c, true⟩ x = .go false ⟨c, true⟩ := by
      unfold floorStep
      cases hsk : skipKw (joinCells x) <;> simp [hsk, hb]
    simp only [List.cons_append, floorScan, hstep]
    exact ih (fun y hy => hL y (List.mem_cons_of_mem x hy))

/-- A row that continues the scan (does not break) and does not contain a skip
keyword leaves `skipping` cleared exactly when its text matches a floor
boundary, and otherwise unchanged. -/
theorem floorStep_go_skipping (ft : FloorType) (n : Nat) (st : ScanState) (r : Row)
    (cap : Bool) (st' : ScanState) (hsk : skipKw (joinCells r) = false)
    (h : floorStep ft n st r = .go cap st') :
    st'.skipping = if boundaryPat (joinCells r) = true then false else st.skipping := by
  unfold floorStep at h
  cases ft <;> cases hb : boundaryPat (joinCells r) <;> cases hss : st.skipping <;>
    cases hex : excludeKw (joinCells r) <;> simp_all <;> (try split at h) <;>
    (try simp_all) <;> (try split at h) <;> (try simp_all) <;> rw [← h.2]

/-- C5 (counterexample): the claim says any subsequent row matching either
boundary pattern terminates scanning for this floor and is not captured. In
the code the exclusion filter runs first: after capture starts at
"3동B2층 배관", the boundary row "3동1층 폭" contains the exclusion keyword 폭,
so it is merely discarded, scanning continues and the following row is still
captured. -/
theorem C5_boundary_exit_counterexample :
    boundaryPat (joinCells ["3동1층 폭"]) = true ∧
      floorScan FloorType.basement 2 ⟨false, false⟩
          [["3동B2층 배관"], ["3동1층 폭"], ["계속 조사"]] =
        [["3동B2층 배관"], ["계속 조사"]] :=
  ⟨rfl, rfl⟩

/-- C5 (amended): for the basement spec with start = end = 2, the row
"3동B2층 배관" sets `capturing` and is captured; a subsequent row matching
either boundary pattern — provided it contains no skip keyword and no
exclusion keyword and does not itself match the basement-entry pattern for
floor 2 — stops the scan for this floor number, is not captured, and nothing
after it is captured. -/
theorem C5_basement_capture_and_exit (B : Row) (rest : List Row)
    (h1 : skipKw (joinCells B) = false)
    (h2 : excludeKw (joinCells B) = false)
    (h3 : boundaryPat (joinCells B) = true)
    (h4 : basementEntry 2 (joinCells B) = false) :
    floorStep FloorType.basement 2 ⟨false, false⟩ ["3동B2층 배관"] = .go true ⟨true, false⟩ ∧
      floorScan FloorType.basement 2 ⟨false, false⟩ (["3동B2층 배관"] :: B :: rest) =
        [["3동B2층 배관"]] := by
  have hA : floorStep FloorType.basement 2 ⟨false, false⟩ ["3동B2층 배관"] =
      .go true ⟨true, false⟩ := rfl
  refine ⟨hA, ?_⟩
  have hB : floorStep FloorType.basement 2 ⟨true, false⟩ B = .brk := by
    unfold floorStep
    simp [h1, h2, h3, h4]
  simp [floorScan, hA, hB]

/-- C5 (witness): the spec's own instance, with exit row "3동1층 배관". -/
theorem C5_witness :
    floorScan FloorType.basement 2 ⟨false, false⟩
        [["3동B2층 배관"], ["3동1층 배관"], ["이후 행"]] = [["3동B2층 배관"]] :=
  (C5_basement_capture_and_exit ["3동1층 배관"] [["이후 행"]] rfl rfl rfl rfl).2

/-- C6 (counterexample): the claim lists 번호, 부위 and 부재 among the noise
keywords, but the source list has 번 호, 부   위 and 부 재 (with internal
spaces), so a capturing scan does capture a row whose text is
"번호 부위 부재". -/
theorem C6_keyword_counterexample :
    hasSub "번호".data (joinCells ["번호 부위 부재"]) = true ∧
      hasSub "부위".data (joinCells ["번호 부위 부재"]) = true ∧
      hasSub "부재".data (joinCells ["번호 부위 부재"]) = true ∧
      floorScan FloorType.ground 1 ⟨true, false⟩ [["번호 부위 부재"]] =
        [["번호 부위 부재"]] :=
  ⟨rfl, rfl, rfl, rfl⟩

/-- C6 (amended): a row whose flattened text contains any keyword of the
actual `exclude_keywords` list (부록, 외관조사망도, 참조, 번 호, 부   위,
부 재, 폭, mm, 길이, 개소, EA — the first three column labels carry internal
spaces) is never captured into a floor band, for every spec kind, floor
number and capture state; in particular "번호 부위 폭 mm" is never captured,
since it contains 폭 and mm. -/
theorem C6_exclusion_never_captured (r : Row) (h : excludeKw (joinCells r) = true) :
    ∀ (ft : FloorType) (n : Nat) (st : ScanState) (rows : List Row),
      r ∉ floorScan ft n st rows := by
  intro ft n st rows
  induction rows generalizing st with
  | nil => simp [floorScan]
  | cons x rest ih =>
    simp only [floorScan]
    cases hstep : floorStep ft n st x with
    | brk => simp
    | go cap st' =>
      intro hmem
      rcases List.mem_append.mp hmem with hm | hm
      · cases cap with
        | false => simp at hm
        | true =>
          simp at hm
          subst hm
          rw [floorStep_captured_not_excluded ft n st _ st' hstep] at h
          simp at h
      · exact ih st' hm

/-- C6 (witness): the spec's instance "번호 부위 폭 mm", in a capturing state. -/
theorem C6_witness :
    excludeKw (joinCells ["번호 부위 폭 mm"]) = true ∧
      ["번호 부위 폭 mm"] ∉
        floorScan FloorType.ground 1 ⟨true, false⟩
          [["3동1층 개요"], ["번호 부위 폭 mm"]] :=
  ⟨rfl, C6_exclusion_never_captured ["번호 부위 폭 mm"] rfl FloorType.ground 1 ⟨true, false⟩ _⟩

/-- C7 (counterexample): the claim says a row matching a floor-boundary
pattern clears `skipping` regardless of its prior value, but skip detection
runs first: the boundary row "3동1층 정면도" contains 정면도 and therefore
SETS `skipping` (here from false to true) instead of clearing it. -/
theorem C7_skip_release_counterexample :
    boundaryPat (joinCells ["3동1층 정면도"]) = true ∧
      floorStep FloorType.ground 1 ⟨false, false⟩ ["3동1층 정면도"] =
        .go false ⟨false, true⟩ :=
  ⟨rfl, rfl⟩

/-- C7 (amended): rows strictly between an elevation-marker row (정면도 or
배면도) and the next boundary-matching row are never captured — the whole
segment contributes nothing to the scan; and a row matching a floor-boundary
pattern that does not itself contain a skip keyword leaves the scan with
`skipping` cleared whenever the scan continues past it. -/
theorem C7_skip_filter :
    (∀ (ft : FloorType) (n : Nat) (st : ScanState) (r : Row) (L rest : List Row),
        skipKw (joinCells r) = true →
        (∀ x ∈ L, boundaryPat (joinCells x) = false) →
        floorScan ft n st (r :: (L ++ rest)) =
          floorScan ft n ⟨st.capturing, true⟩ rest) ∧
    (∀ (ft : FloorType) (n : Nat) (st : ScanState) (r : Row) (cap : Bool) (st' : ScanState),
        boundaryPat (joinCells r) = true → skipKw (joinCells r) = false →
        floorStep ft n st r = .go cap st' → st'.skipping = false) := by
  constructor
  · intro ft n st r L rest hr hL
    have hstep : floorStep ft n st r = .go false ⟨st.capturing, true⟩ := by
      unfold floorStep
      simp [hr]
    simp only [floorScan, hstep]
    simpa using floorScan_skip_segment ft n st.capturing L rest hL
  · intro ft n st r cap st' hb hsk h
    rw [floorStep_go_skipping ft n st r cap st' hsk h, if_pos hb]

/-- C7 (witness): a 정면도 row, one in-between row, and release at a boundary
row, at concrete inputs. -/
theorem C7_witness :
    floorScan FloorType.ground 1 ⟨false, false⟩
        [["정면도 입면"], ["외벽 균열"], ["3동1층 시작"]] =
      floorScan FloorType.ground 1 ⟨false, true⟩ [["3동1층 시작"]] ∧
    (⟨true, false⟩ : ScanState).skipping = false :=
  ⟨C7_skip_filter.1 FloorType.ground 1 ⟨false, false⟩ ["정면도 입면"] [["외벽 균열"]]
      [["3동1층 시작"]] rfl (by decide),
    C7_skip_filter.2 FloorType.ground 1 ⟨false, true⟩ ["3동1층 시작"] true ⟨true, false⟩
      rfl rfl rfl⟩

/-- C10 (confirmed): the ground-kind boundary entry fires only when the
leftmost `\d+동\s*(\d+)층` match has group 1 equal to the target floor and the
whole row text contains neither 지하 nor the letter B; consequently the row
"3동1층 B타입" never starts ground-kind capture, for any target floor and any
prior skipping state. -/
theorem C10_ground_entry_guard :
    (∀ (n : Nat) (st : ScanState) (r : Row) (st' : ScanState),
        st.capturing = false →
        floorStep FloorType.ground n st r = .go true st' →
        (∃ gs, groundSearch (joinCells r) = some gs ∧ digitsToNat gs = n) ∧
          hasSub "지하".data (joinCells r) = false ∧
          hasSub "B".data (joinCells r) = false) ∧
    (∀ (n : Nat) (sk : Bool),
        floorScan FloorType.ground n ⟨false, sk⟩ [["3동1층 B타입"]] = []) := by
  constructor
  · intro n st r st' hc h
    exact groundEntryHit_spec n (joinCells r) (floorStep_ground_new_capture n st r st' hc h)
  · intro n sk
    rfl

/-- C10 (witness): the entry row "3동1층 철근" for floor 1. -/
theorem C10_witness :
    (∃ gs, groundSearch (joinCells ["3동1층 철근"]) = some gs ∧ digitsToNat gs = 1) ∧
      hasSub "지하".data (joinCells ["3동1층 철근"]) = false ∧
      hasSub "B".data (joinCells ["3동1층 철근"]) = false :=
  C10_ground_entry_guard.1 1 ⟨false, false⟩ ["3동1층 철근"] ⟨true, false⟩ rfl rfl

/-! Section groupers: lemmas and claims C3, C8. -/

/-- Lookup distributes over dict concatenation. -/
theorem lookupA_append (m m' : DMap) (k : String) :
    lookupA (m ++ m') k =
      match lookupA m k with
      | some v => some v
      | none => lookupA m' k := by
  induction m with
  | nil => rfl
  | cons p m ih =>
    obtain ⟨k', v⟩ := p
    by_cases hk : k' = k <;> simp [lookupA, hk, ih]

/-- Appending a row to a present key extends its list. -/
theorem lookupA_appendAt_self (m : DMap) (k : String) (r : Row) (l : List Row)
    (h : lookupA m k = some l) : lookupA (appendAt m k r) k = some (l ++ [r]) := by
  induction m with
  | nil => simp [lookupA] at h
  | cons p m ih =>
    obtain ⟨k', v⟩ := p
    by_cases hk : k' = k
    · subst hk
      simp [lookupA] at h
      simp [appendAt, lookupA, h]
    · simp [lookupA, hk] at h
      simp [appendAt, lookupA, hk, ih h]

/-- Appending a row at one key leaves every other key unchanged. -/
theorem lookupA_appendAt_other (m : DMap) (k k' : String) (r : Row) (h : k' ≠ k) :
    lookupA (appendAt m k' r) k = lookupA m k := by
  induction m with
  | nil => rfl
  | cons p m ih =>
    obtain ⟨k0, v⟩ := p
    by_cases h0 : k0 = k'
    · subst h0
      simp [appendAt, lookupA, h]
    · by_cases h1 : k0 = k <;> simp [appendAt, lookupA, h0, h1, ih, Ne.symm h]

/-- Lazy creation: after `insertIfAbsent` the key maps to its old list, or to
the empty list when it was absent. -/
theorem lookupA_insertIfAbsent_self (m : DMap) (k : String) :
    lookupA (insertIfAbsent m k) k = some ((lookupA m k).getD []) := by
  unfold insertIfAbsent
  cases h : lookupA m k with
  | some v => simp [h]
  | none => simp [h, lookupA_append, lookupA]

/-- `insertIfAbsent` never modifies a present entry (of any key). -/
theorem lookupA_insertIfAbsent_of_some (m : DMap) (k k' : String) (l : List Row)
    (h : lookupA m k = some l) : lookupA (insertIfAbsent m k') k = some l := by
  unfold insertIfAbsent
  cases hk' : (lookupA m k').isSome with
  | true => simpa using h
  | false => simp [lookupA_append, h]

/-- A markerless row in the no-current-section state is dropped. -/
theorem group_by_dong_step_no_marker_none (m : DMap) (r : Row)
    (h : dongSearch (joinCells r) = none) :
    group_by_dong_step (m, none) r = (m, none) := by
  unfold group_by_dong_step
  simp [h]

/-- Folding the nested table/row loops equals folding the flattened stream. -/
theorem foldl_tables_flatten (f : (DMap × Option String) → Row → (DMap × Option String))
    (tables : List (List Row)) (st : DMap × Option String) :
    tables.foldl (fun s tb => tb.foldl f s) st = (tables.flatten).foldl f st := by
  induction tables generalizing st with
  | nil => rfl
  | cons tb tables ih => simp [List.foldl_append, ih]

/-- The marker scan over cells with no matching cell leaves the state alone. -/
theorem cellScan_no_match (cells : List String) (st : DMap × Option String)
    (h : ∀ c ∈ cells, dongSearch c.data = none) :
    cells.foldl dongCellStep st = st := by
  induction cells with
  | nil => rfl
  | cons c cells ih =>
    rw [List.foldl_cons]
    have hc : dongCellStep st c = st := by
      unfold dongCellStep
      simp [h c (List.mem_cons_self c cells)]
    rw [hc]
    exact ih (fun c' hc' => h c' (List.mem_cons_of_mem c hc'))

/-- The marker scan never modifies an existing section entry. -/
theorem lookupA_cellScan (cells : List String) (st : DMap × Option String) (k : String)
    (l : List Row) (h : lookupA st.1 k = some l) :
    lookupA ((cells.foldl dongCellStep st).1) k = some l := by
  induction cells generalizing st with
  | nil => exact h
  | cons c cells ih =>
    rw [List.foldl_cons]
    apply ih
    unfold dongCellStep
    cases hc : dongSearch c.data with
    | none => simpa using h
    | some ds => simpa using lookupA_insertIfAbsent_of_some st.1 k _ l h

/-- The invariant that the current section, when set, is a key of the map. -/
def curOk (st : DMap × Option String) : Prop :=
  ∀ k, st.2 = some k → (lookupA st.1 k).isSome = true

/-- One marker-scan step preserves `curOk`. -/
theorem curOk_dongCellStep (st : DMap × Option String) (c : String) (h : curOk st) :
    curOk (dongCellStep st c) := by
  unfold dongCellStep
  cases hc : dongSearch c.data with
  | none => exact h
  | some ds =>
    intro k hk
    simp at hk
    subst hk
    rw [lookupA_insertIfAbsent_self]
    rfl

/-- The whole marker scan preserves `curOk`. -/
theorem curOk_cellScan (cells : List String) (st : DMap × Option String) (h : curOk st) :
    curOk (cells.foldl dongCellStep st) := by
  induction cells generalizing st with
  | nil => exact h
  | cons c cells ih => exact ih (dongCellStep st c) (curOk_dongCellStep st c h)

/-- C8 (confirmed): the section groupers append a row only when a current
section exists. Part 1 ties `group_by_dong` to the fold over the flattened
stream; part 2 shows rows before the first marker belong to no section; part
3 shows a markerless row is appended to the most-recently-seen section; part
4 shows a marker row switches to its section and is appended there, with an
already-seen marker re-selecting the existing list (its old contents are
preserved, never re-created or emptied); part 5 shows the
`group_data_by_dong` row step also never shrinks an existing section list. -/
theorem C8_section_grouper :
    (∀ tables, group_by_dong tables = ((tables.flatten).foldl group_by_dong_step ([], none)).1) ∧
    (∀ (pre rest : List Row),
        (∀ r ∈ pre, dongSearch (joinCells r) = none) →
        (pre ++ rest).foldl group_by_dong_step ([], none) =
          rest.foldl group_by_dong_step ([], none)) ∧
    (∀ (m : DMap) (cd : String) (r : Row) (l : List Row),
        dongSearch (joinCells r) = none → lookupA m cd = some l →
        group_by_dong_step (m, some cd) r = (appendAt m cd r, some cd) ∧
          lookupA (appendAt m cd r) cd = some (l ++ [r])) ∧
    (∀ (m : DMap) (cur : Option String) (r : Row) (ds : List Char),
        dongSearch (joinCells r) = some ds →
        (group_by_dong_step (m, cur) r).2 = some (String.mk ds ++ "동") ∧
          (∀ l, lookupA m (String.mk ds ++ "동") = some l →
            lookupA (group_by_dong_step (m, cur) r).1 (String.mk ds ++ "동") = some (l ++ [r])) ∧
          (lookupA m (String.mk ds ++ "동") = none →
            lookupA (group_by_dong_step (m, cur) r).1 (String.mk ds ++ "동") = some [r])) ∧
    (∀ (m : DMap) (cur : Option String) (r : Row) (k : String) (l : List Row),
        lookupA m k = some l →
        ∃ t2, lookupA ((group_row_step_dong (m, cur) r).1) k = some (l ++ t2)) := by
  refine ⟨?_, ?_, ?_, ?_, ?_⟩
  · intro tables
    unfold group_by_dong
    rw [foldl_tables_flatten]
  · intro pre rest h
    induction pre with
    | nil => rfl
    | cons x pre ih =>
      rw [List.cons_append, List.foldl_cons,
        group_by_dong_step_no_marker_none [] x (h x (List.mem_cons_self x pre))]
      exact ih (fun r hr => h r (List.mem_cons_of_mem x hr))
  · intro m cd r l hr hl
    constructor
    · unfold group_by_dong_step
      simp [hr]
    · exact lookupA_appendAt_self m cd r l hl
  · intro m cur r ds hr
    have hstep : group_by_dong_step (m, cur) r =
        (appendAt (insertIfAbsent m (String.mk ds ++ "동")) (String.mk ds ++ "동") r,
          some (String.mk ds ++ "동")) := by
      unfold group_by_dong_step
      simp [hr]
    refine ⟨by rw [hstep], ?_, ?_⟩
    · intro l hl
      rw [hstep]
      exact lookupA_appendAt_self _ _ _ l (lookupA_insertIfAbsent_of_some m _ _ l hl)
    · intro hl
      rw [hstep]
      have h0 : lookupA (insertIfAbsent m (String.mk ds ++ "동")) (String.mk ds ++ "동") =
          some [] := by
        rw [lookupA_insertIfAbsent_self, hl]
        rfl
      simpa using lookupA_appendAt_self _ _ r [] h0
  · intro m cur r k l hl
    unfold group_row_step_dong
    have h1 : lookupA ((r.foldl dongCellStep (m, cur)).1) k = some l :=
      lookupA_cellScan r (m, cur) k l hl
    cases hcur : (r.foldl dongCellStep (m, cur)).2 with
    | none => exact ⟨[], by simpa [hcur] using h1⟩
    | some cd =>
      by_cases hk : cd = k
      · subst hk
        exact ⟨[r], by simpa [hcur] using lookupA_appendAt_self _ _ r l h1⟩
      · exact ⟨[], by simpa [hcur, lookupA_appendAt_other _ _ _ _ hk] using h1⟩

/-- C8 (witness): the grouping facts at concrete inputs — a preamble row is
dropped, a markerless row joins the current section, and re-encountering the
marker 1동 re-selects and extends the existing list. -/
theorem C8_witness :
    ([["개요"]] ++ [["1동 현황"]]).foldl group_by_dong_step ([], none) =
        [["1동 현황"]].foldl group_by_dong_step ([], none) ∧
      group_by_dong_step ([("1동", [["1동 현황"]])], some "1동") ["추가 행"] =
        (appendAt [("1동", [["1동 현황"]])] "1동" ["추가 행"], some "1동") ∧
      lookupA
          (group_by_dong_step ([("1동", [["1동 현황"]])], some "2동") ["재등장 1동"]).1 "1동" =
        some ([["1동 현황"]] ++ [["재등장 1동"]]) ∧
      ∃ t2,
        lookupA ((group_row_step_dong ([("1동", [["1동 현황"]])], some "1동") ["후속"]).1) "1동" =
          some ([["1동 현황"]] ++ t2) :=
  ⟨C8_section_grouper.2.1 [["개요"]] [["1동 현황"]] (by decide),
    (C8_section_grouper.2.2.1 [("1동", [["1동 현황"]])] "1동" ["추가 행"] [["1동 현황"]]
        (by decide) rfl).1,
    (C8_section_grouper.2.2.2.1 [("1동", [["1동 현황"]])] (some "2동") ["재등장 1동"]
        ['1'] (by decide)).2.1 [["1동 현황"]] rfl,
    C8_section_grouper.2.2.2.2 [("1동", [["1동 현황"]])] (some "1동") ["후속"] "1동"
      [["1동 현황"]] rfl⟩

/-- C3 (counterexample): in `group_data_by_dong` every matching cell updates
the current section, so a row whose cells are ["1동", "2동"] is appended to
2동 (the LAST matching cell), not to 1동 as the claim states — 1동 is created
but left empty. -/
theorem C3_first_cell_counterexample :
    lookupA (group_data_by_dong [("s", 0, [["1동", "2동"]])]) "1동" = some [] ∧
      lookupA (group_data_by_dong [("s", 0, [["1동", "2동"]])]) "2동" = some [["1동", "2동"]] ∧
      lookupA (group_data_by_dong [("s", 0, [["1동", "2동"]])]) "1동" ≠
        some [["1동", "2동"]] :=
  ⟨rfl, rfl, by decide⟩

/-- C3 (amended): in `group_data_by_dong` the LAST cell of a row matching the
digits+동 marker pattern determines the current-section transition recorded
for the row, and the row is appended to that section (earlier matching cells
still create their sections); in hwpx_app's `group_by_dong` the transition is
instead determined by the single leftmost match in the joined row text. -/
theorem C3_marker_transition :
    (∀ (st : DMap × Option String) (pre post : List String) (c : String) (ds : List Char),
        dongSearch c.data = some ds →
        (∀ x ∈ post, dongSearch x.data = none) →
        ((pre ++ c :: post).foldl dongCellStep st).2 = some (String.mk ds ++ "동")) ∧
    (∀ (m : DMap) (cur : Option String) (r : Row) (cd : String),
        curOk (m, cur) →
        (r.foldl dongCellStep (m, cur)).2 = some cd →
        (group_row_step_dong (m, cur) r).2 = some cd ∧
          ∃ l, lookupA (group_row_step_dong (m, cur) r).1 cd = some (l ++ [r])) ∧
    (∀ (st : DMap × Option String) (r : Row) (ds : List Char),
        dongSearch (joinCells r) = some ds →
        (group_by_dong_step st r).2 = some (String.mk ds ++ "동")) := by
  refine ⟨?_, ?_, ?_⟩
  · intro st pre post c ds hc hpost
    rw [List.foldl_append, List.foldl_cons, cellScan_no_match post _ hpost]
    unfold dongCellStep
    simp [hc]
  · intro m cur r cd hok hcd
    have hok1 : curOk (r.foldl dongCellStep (m, cur)) := curOk_cellScan r (m, cur) hok
    obtain ⟨l, hl⟩ : ∃ l, lookupA ((r.foldl dongCellStep (m, cur)).1) cd = some l := by
      have := hok1 cd hcd
      cases hx : lookupA ((r.foldl dongCellStep (m, cur)).1) cd with
      | none => rw [hx] at this; simp at this
      | some v => exact ⟨v, rfl⟩
    unfold group_row_step_dong
    simp only [hcd]
    exact ⟨trivial, l, lookupA_appendAt_self _ _ r l hl⟩
  · intro st r ds hr
    unfold group_by_dong_step
    simp [hr]

/-- C3 (witness): the last-match transition and append at concrete inputs:
the row ["비고", "1동", "2동"] moves the current section to 2동 and is stored
there. -/
theorem C3_witness :
    (((["비고", "1동"] ++ "2동" :: []).foldl dongCellStep (([], none) : DMap × Option String)).2 =
        some (String.mk ['2'] ++ "동")) ∧
      (group_row_step_dong (([], none) : DMap × Option String) ["비고", "1동", "2동"]).2 =
          some "2동" ∧
        ∃ l, lookupA (group_row_step_dong (([], none) : DMap × Option String)
            ["비고", "1동", "2동"]).1 "2동" = some (l ++ [["비고", "1동", "2동"]]) :=
  ⟨C3_marker_transition.1 ([], none) ["비고", "1동"] [] "2동" ['2'] rfl (by decide),
    C3_marker_transition.2.1 [] none ["비고", "1동", "2동"] "2동" (by intro k hk; cases hk) rfl⟩

/-! Export assembly and the rooftop addendum: claims C9 and C1. -/

/-- A left fold that appends a block per element is the concatenation of the
blocks. -/
theorem foldl_append_blocks {α β : Type} (g : α → List β) (specs : List α) (acc : List β) :
    specs.foldl (fun a sp => a ++ g sp) acc = acc ++ (specs.map g).flatten := by
  induction specs generalizing acc with
  | nil => simp
  | cons sp specs ih => simp [ih]

/-- Variant with a trailing separator element per block. -/
theorem foldl_append_blocks_sep {α β : Type} (g : α → List β) (e : β) (specs : List α)
    (acc : List β) :
    specs.foldl (fun a sp => a ++ g sp ++ [e]) acc =
      acc ++ (specs.map (fun sp => g sp ++ [e])).flatten := by
  induction specs generalizing acc with
  | nil => simp
  | cons sp specs ih =>
    rw [List.foldl_cons, ih]
    simp [List.append_assoc]

/-- C9 (counterexample): with two configured bands, `make_excel_bytes` emits
title row, captured rows, title row, captured rows — and no blank separator
row anywhere, contrary to the claim. -/
theorem C9_separator_counterexample :
    combinedDataApp 1 [("저층", FloorType.ground, 1, 1), ("고층", FloorType.ground, 1, 1)]
        [["1동1층 자료"]] =
      [["[ 저층 ]"], ["1동1층 자료"], ["[ 고층 ]"], ["1동1층 자료"]] ∧
      emptyRow 1 ∉
        combinedDataApp 1 [("저층", FloorType.ground, 1, 1), ("고층", FloorType.ground, 1, 1)]
          [["1동1층 자료"]] :=
  ⟨rfl, by decide⟩

/-- C9 (amended): per spec, in the order supplied, `split_by_floor_ranges`
emits a title row, the captured rows, and a blank separator row after every
band (hence between bands); `make_excel_bytes` emits only a title row followed
by the captured band rows, with no separator rows. -/
theorem C9_export_blocks :
    (∀ (w : Nat) (specs : List AppSpec) (allRows : List Row),
        combinedDataApp w specs allRows =
          (specs.map
              (fun sp => titleRow sp.1 w :: bandRowsApp sp.2.1 sp.2.2.1 sp.2.2.2 allRows)).flatten) ∧
    (∀ (w : Nat) (specs : List SplitSpec) (rows : List Row),
        combinedDataSplit w specs rows =
          (specs.map
              (fun sp =>
                (titleRow sp.1 w :: splitFloorRows sp.2.1 sp.2.2 rows) ++ [emptyRow w])).flatten) := by
  constructor
  · intro w specs allRows
    unfold combinedDataApp
    rw [foldl_append_blocks]
    simp
  · intro w specs rows
    unfold combinedDataSplit
    rw [foldl_append_blocks_sep]
    simp

/-- Each band-filter step only appends, so it preserves membership. -/
theorem splitRowStep_subset (s e : Nat) (acc : List Row) (x : Row) (a : Row) (h : a ∈ acc) :
    a ∈ splitRowStep s e acc x := by
  simp only [splitRowStep]
  split <;> split <;> simp [h]

/-- The band filter fold preserves membership of the accumulator. -/
theorem splitFold_mono (s e : Nat) (rows : List Row) (acc : List Row) (a : Row) (h : a ∈ acc) :
    a ∈ rows.foldl (splitRowStep s e) acc := by
  induction rows generalizing acc with
  | nil => exact h
  | cons x rows ih => exact ih _ (splitRowStep_subset s e acc x a h)

/-- A rooftop-keyword row survives its own step when `end >= 15`. -/
theorem mem_splitRowStep_self (s e : Nat) (acc : List Row) (r : Row)
    (he : 15 ≤ e) (hk : rooftopKw (joinCells r) = true) :
    r ∈ splitRowStep s e acc r := by
  simp only [splitRowStep]
  by_cases h1 : numericHit s e (joinCells r) = true
  · rw [if_pos h1]
    split <;> simp
  · rw [if_neg h1]
    by_cases h2 : r ∈ acc
    · rw [if_neg (fun hc => hc.2.2 h2)]
      exact h2
    · rw [if_pos ⟨he, hk, h2⟩]
      simp

/-- Processing a different row never changes the count of `r`. -/
theorem count_splitRowStep_other (s e : Nat) (acc : List Row) (x r : Row) (h : x ≠ r) :
    (splitRowStep s e acc x).count r = acc.count r := by
  simp only [splitRowStep]
  split <;> split <;>
    simp [List.count_append, List.count_cons, beq_iff_eq, Ne.symm h]

/-- Processing `r` itself, absent so far, yields exactly one occurrence when
`end >= 15` and `r` carries a rooftop keyword. -/
theorem count_splitRowStep_self (s e : Nat) (acc : List Row) (r : Row)
    (he : 15 ≤ e) (hk : rooftopKw (joinCells r) = true) (h0 : acc.count r = 0) :
    (splitRowStep s e acc r).count r = 1 := by
  have hnotin : r ∉ acc := by
    intro hm
    have := List.count_pos_iff.mpr hm
    omega
  simp only [splitRowStep]
  by_cases h1 : numericHit s e (joinCells r) = true
  · rw [if_pos h1, if_neg (fun hc => hc.2.2 (by simp))]
    simp [List.count_append, List.count_cons, beq_iff_eq, h0]
  · rw [if_neg h1, if_pos ⟨he, hk, hnotin⟩]
    simp [List.count_append, List.count_cons, beq_iff_eq, h0]

/-- Rows other than `r` leave the count of `r` through the fold unchanged. -/
theorem count_splitFold_of_not_mem (s e : Nat) (rows : List Row) (acc : List Row) (r : Row)
    (h : r ∉ rows) : (rows.foldl (splitRowStep s e) acc).count r = acc.count r := by
  induction rows generalizing acc with
  | nil => rfl
  | cons x rows ih =>
    rw [List.foldl_cons, ih _ (fun hh => h (List.mem_cons_of_mem x hh)),
      count_splitRowStep_other s e acc x r (fun he' => h (he' ▸ List.mem_cons_self x rows))]

/-- C1 (amended): the rooftop/roof addendum holds for the keyword-substring
band filter of `split_by_floor_ranges`: when `end >= 15`, every section row
whose text contains 옥탑 or 지붕 ends up in the band, and a rooftop row that
occurs once in the section appears in the band exactly once (full-row-equality
de-duplication). The state-machine extractor of `make_excel_bytes` has no such
addendum (see the counterexample). -/
theorem C1_rooftop_addendum :
    (∀ (s e : Nat) (rows : List Row) (r : Row),
        15 ≤ e → rooftopKw (joinCells r) = true → r ∈ rows →
        r ∈ splitFloorRows s e rows) ∧
    (∀ (s e : Nat) (rows : List Row) (r : Row),
        15 ≤ e → rooftopKw (joinCells r) = true → rows.count r = 1 →
        (splitFloorRows s e rows).count r = 1) := by
  constructor
  · intro s e rows r he hk hmem
    unfold splitFloorRows
    obtain ⟨pre, post, rfl⟩ := List.append_of_mem hmem
    rw [List.foldl_append, List.foldl_cons]
    exact splitFold_mono s e post _ r
      (mem_splitRowStep_self s e (pre.foldl (splitRowStep s e) []) r he hk)
  · intro s e rows r he hk hcount
    have hmem : r ∈ rows := by
      by_contra hr
      rw [List.count_eq_zero_of_not_mem hr] at hcount
      omega
    obtain ⟨pre, post, rfl⟩ := List.append_of_mem hmem
    have hsplit : pre.count r = 0 ∧ post.count r = 0 := by
      rw [List.count_append, List.count_cons_self] at hcount
      omega
    have hprenot : r ∉ pre := fun hm => by
      have := List.count_pos_iff.mpr hm
      omega
    have hpostnot : r ∉ post := fun hm => by
      have := List.count_pos_iff.mpr hm
      omega
    unfold splitFloorRows
    rw [List.foldl_append, List.foldl_cons,
      count_splitFold_of_not_mem s e post _ r hpostnot,
      count_splitRowStep_self s e _ r he hk
        (by rw [count_splitFold_of_not_mem s e pre [] r hprenot]; rfl)]

/-- C1 (counterexample): for a `make_excel_bytes` band with end = 20, the
section row "옥탑 2층" carries a rooftop keyword yet appears in the band zero
times, not once — the state machine has no rooftop addendum. -/
theorem C1_rooftop_counterexample :
    rooftopKw (joinCells ["옥탑 2층"]) = true ∧
      bandRowsApp FloorType.ground 1 20 [["옥탑 2층"]] = [] ∧
      (bandRowsApp FloorType.ground 1 20 [["옥탑 2층"]]).count ["옥탑 2층"] = 0 :=
  ⟨rfl, rfl, rfl⟩

/-- C1 (witness): both addendum parts at concrete inputs, for the band
16..20. -/
theorem C1_witness :
    ["옥탑 2층"] ∈ splitFloorRows 16 20 [["지붕 점검"], ["옥탑 2층"]] ∧
      (splitFloorRows 16 20 [["지붕 점검"], ["옥탑 2층"]]).count ["옥탑 2층"] = 1 :=
  ⟨C1_rooftop_addendum.1 16 20 [["지붕 점검"], ["옥탑 2층"]] ["옥탑 2층"] (by decide) rfl
      (by decide),
    C1_rooftop_addendum.2 16 20 [["지붕 점검"], ["옥탑 2층"]] ["옥탑 2층"] (by decide) rfl
      (by decide)⟩

/-! Package extraction failure behavior: claim C4. -/

/-- C4 (counterexample): with a well-formed first entry and a malformed second
entry, the extractor of src/hwpx_to_excel_by_dong.py raises nothing — it
returns the tables accumulated before the failing entry, publishing partial
extraction state with no PackageParseError of any kind. -/
theorem C4_partial_state_counterexample :
    extract_tables_from_hwpx_dong
        [("Contents/section0.xml",
          .xml (.elem (.unq "hml") none
            [.elem (.ns "tbl") none
              [.elem (.ns "tr") none
                [.elem (.ns "tc") none [.elem (.ns "t") (some "값") []]]]])),
          ("Contents/section1.xml", .malformed)] =
      [("Contents/section0.xml", 0, [["값"]])] ∧
      extract_tables_from_hwpx_dong
          [("Contents/section0.xml",
            .xml (.elem (.unq "hml") none
              [.elem (.ns "tbl") none
                [.elem (.ns "tr") none
                  [.elem (.ns "tc") none [.elem (.ns "t") (some "값") []]]]])),
            ("Contents/section1.xml", .malformed)] ≠
        [] :=
  ⟨rfl, by decide⟩

/-- C4 (amended): neither extractor raises a PackageParseError. For any
well-formed prefix followed by a malformed entry, hwpx_app's extractor aborts
with the underlying parse error (which carries no entry name) and publishes no
tables, while hwpx_to_excel_by_dong's extractor swallows the error and returns
exactly the tables accumulated over the prefix — partial state is published to
the caller, and the remaining entries are skipped. -/
theorem C4_extraction_on_malformed (pre : List ZEntry) (e : ZEntry) (rest : List ZEntry)
    (acc : List TaggedTable) (acc' : List (List Row))
    (hpre : ∀ x ∈ pre, x.2 ≠ EntryBody.malformed) (he : e.2 = EntryBody.malformed) :
    extractLoopDong acc (pre ++ e :: rest) = extractLoopDong acc pre ∧
      extractLoopApp acc' (pre ++ e :: rest) = Except.error () := by
  induction pre generalizing acc acc' with
  | nil =>
    obtain ⟨nm, body⟩ := e
    cases body with
    | xml root => exact absurd he (by simp)
    | malformed => exact ⟨rfl, rfl⟩
  | cons x pre ih =>
    obtain ⟨nm, body⟩ := x
    cases body with
    | malformed => exact absurd rfl (hpre (nm, .malformed) (List.mem_cons_self _ pre))
    | xml root =>
      have := ih (acc ++ tablesOfRootDong nm root) (acc' ++ tablesOfRootApp root)
        (fun y hy => hpre y (List.mem_cons_of_mem _ hy))
      simpa [extractLoopDong, extractLoopApp] using this

/-- C4 (witness): the amended behavior at a one-good-one-malformed package. -/
theorem C4_witness :
    extractLoopDong []
        [("Contents/section0.xml",
          .xml (.elem (.unq "hml") none [.elem (.unq "tbl") none
            [.elem (.unq "tr") none
              [.elem (.unq "tc") none [.elem (.unq "t") (some "자료") []]]]])),
          ("Contents/section1.xml", .malformed)] =
      extractLoopDong []
        [("Contents/section0.xml",
          .xml (.elem (.unq "hml") none [.elem (.unq "tbl") none
            [.elem (.unq "tr") none
              [.elem (.unq "tc") none [.elem (.unq "t") (some "자료") []]]]]))] ∧
      extractLoopApp []
          [("Contents/section0.xml",
            .xml (.elem (.unq "hml") none [.elem (.unq "tbl") none
              [.elem (.unq "tr") none
                [.elem (.unq "tc") none [.elem (.unq "t") (some "자료") []]]]])),
            ("Contents/section1.xml", .malformed)] =
        Except.error () :=
  C4_extraction_on_malformed
    [("Contents/section0.xml",
      .xml (.elem (.unq "hml") none [.elem (.unq "tbl") none
        [.elem (.unq "tr") none
          [.elem (.unq "tc") none [.elem (.unq "t") (some "자료") []]]]]))]
    ("Contents/section1.xml", .malformed) [] [] []
    (by intro x hx; simp at hx; subst hx; simp) rfl

/-! Namespace-tolerant tag lookup: claim C2. -/

/-- Qualification does not touch element text. -/
theorem elemText_qualify (x : Xml) : elemText (qualify x) = elemText x := by
  cases x with
  | elem tg tx cs => rfl

mutual

/-- A fully qualified document has no unqualified tags to find. -/
theorem findDesc_qualify_unq (t : String) (e : Xml) :
    findDesc (XTag.unq t) (qualify e) = [] := by
  cases e with
  | elem tg tx cs =>
    simp only [qualify, findDesc]
    exact findDescList_qualifyList_unq t cs

/-- Forest version of `findDesc_qualify_unq`. -/
theorem findDescList_qualifyList_unq (t : String) (cs : List Xml) :
    findDescList (XTag.unq t) (qualifyList cs) = [] := by
  cases cs with
  | nil => rfl
  | cons c rest =>
    simp only [qualifyList, findDescList, findSelf_qualify_unq t c,
      findDescList_qualifyList_unq t rest, List.append_nil]

/-- Self-or-descendant version of `findDesc_qualify_unq`. -/
theorem findSelf_qualify_unq (t : String) (e : Xml) :
    findSelf (XTag.unq t) (qualify e) = [] := by
  cases e with
  | elem tg tx cs =>
    have hne : qualifyTag tg ≠ XTag.unq t := by cases tg <;> simp [qualifyTag]
    simp only [qualify, findSelf, if_neg hne, List.nil_append]
    exact findDescList_qualifyList_unq t cs

end

mutual

/-- An all-unqualified document has no namespace-qualified tags to find. -/
theorem findDesc_ns_of_allUnq (t : String) (e : Xml) (h : allUnq e = true) :
    findDesc (XTag.ns t) e = [] := by
  cases e with
  | elem tg tx cs =>
    simp only [allUnq, Bool.and_eq_true] at h
    simp only [findDesc]
    exact findDescList_ns_of_allUnqList t cs h.2

/-- Forest version of `findDesc_ns_of_allUnq`. -/
theorem findDescList_ns_of_allUnqList (t : String) (cs : List Xml)
    (h : allUnqList cs = true) : findDescList (XTag.ns t) cs = [] := by
  cases cs with
  | nil => rfl
  | cons c rest =>
    simp only [allUnqList, Bool.and_eq_true] at h
    simp only [findDescList, findSelf_ns_of_allUnq t c h.1,
      findDescList_ns_of_allUnqList t rest h.2, List.append_nil]

/-- Self-or-descendant version of `findDesc_ns_of_allUnq`. -/
theorem findSelf_ns_of_allUnq (t : String) (e : Xml) (h : allUnq e = true) :
    findSelf (XTag.ns t) e = [] := by
  cases e with
  | elem tg tx cs =>
    simp only [allUnq, Bool.and_eq_true] at h
    have hne : tg ≠ XTag.ns t := by
      cases tg with
      | unq n => simp
      | ns n => simp [isUnqTag] at h
    simp only [findSelf, if_neg hne, List.nil_append]
    exact findDescList_ns_of_allUnqList t cs h.2

end

mutual

/-- For an all-unqualified document, the qualified lookup on its qualified
counterpart finds exactly the qualified copies of the unqualified lookup. -/
theorem findDesc_qualify_ns (t : String) (e : Xml) (h : allUnq e = true) :
    findDesc (XTag.ns t) (qualify e) = (findDesc (XTag.unq t) e).map qualify := by
  cases e with
  | elem tg tx cs =>
    simp only [allUnq, Bool.and_eq_true] at h
    simp only [qualify, findDesc]
    exact findDescList_qualify_ns t cs h.2

/-- Forest version of `findDesc_qualify_ns`. -/
theorem findDescList_qualify_ns (t : String) (cs : List Xml)
    (h : allUnqList cs = true) :
    findDescList (XTag.ns t) (qualifyList cs) = (findDescList (XTag.unq t) cs).map qualify := by
  cases cs with
  | nil => rfl
  | cons c rest =>
    simp only [allUnqList, Bool.and_eq_true] at h
    simp only [qualifyList, findDescList, List.map_append,
      findSelf_qualify_ns t c h.1, findDescList_qualify_ns t rest h.2]

/-- Self-or-descendant version of `findDesc_qualify_ns`. -/
theorem findSelf_qualify_ns (t : String) (e : Xml) (h : allUnq e = true) :
    findSelf (XTag.ns t) (qualify e) = (findSelf (XTag.unq t) e).map qualify := by
  cases e with
  | elem tg tx cs =>
    simp only [allUnq, Bool.and_eq_true] at h
    cases tg with
    | ns n => simp [isUnqTag] at h
    | unq n =>
      simp only [qualify, qualifyTag, findSelf, List.map_append]
      rw [findDescList_qualify_ns t cs h.2]
      by_cases hn : n = t
      · subst hn
        simp [qualify, qualifyTag]
      · rw [if_neg (by simp [hn]), if_neg (by simp [hn])]
        simp

end

/-- C2 (counterexample): the claim's lookup order fails twice in
src/hwpx_to_excel_by_dong.py. Its text-run extraction performs BOTH lookups
unconditionally — a cell carrying an unqualified t "A" and a qualified t "B"
yields "A B", not the "A" of the spec's unqualified-first strategy; and its
tbl lookup tries the namespace-qualified tag FIRST — on a root carrying both
forms it returns the qualified element, not the unqualified one. -/
theorem C2_lookup_order_counterexample :
    extract_text_from_element
        (Xml.elem (XTag.unq "tc") none
          [Xml.elem (XTag.unq "t") (some "A") [], Xml.elem (XTag.ns "t") (some "B") []]) =
      "A B" ∧
      specTolerantText
          (Xml.elem (XTag.unq "tc") none
            [Xml.elem (XTag.unq "t") (some "A") [], Xml.elem (XTag.ns "t") (some "B") []]) =
        "A" ∧
      ("A B" : String) ≠ "A" ∧
      (tblLookup_dong
          (Xml.elem (XTag.unq "root") none
            [Xml.elem (XTag.ns "tbl") none [], Xml.elem (XTag.unq "tbl") none []])).map tagOf =
        [XTag.ns "tbl"] ∧
      (specTolerantLookup "tbl"
          (Xml.elem (XTag.unq "root") none
            [Xml.elem (XTag.ns "tbl") none [], Xml.elem (XTag.unq "tbl") none []])).map tagOf =
        [XTag.unq "tbl"] :=
  ⟨rfl, rfl, by decide, rfl, rfl⟩

/-- C2 (amended): hwpx_app's `find_elements` does attempt the unqualified tag
first, retrying qualified only when nothing matched; hwpx_to_excel_by_dong
attempts the namespace-qualified tbl tag first (falling back to unqualified)
and extracts text runs from BOTH lookups unconditionally. Nevertheless, for a
document using a single form the extracted cell text is the same: on any
all-unqualified element and its fully qualified counterpart, both
`extract_text_from_element` and `get_text` give identical strings. -/
theorem C2_ns_lookup :
    (∀ (parent : Xml) (tag : String),
        findDesc (XTag.unq tag) parent ≠ [] →
        find_elements parent tag = findDesc (XTag.unq tag) parent) ∧
    (∀ (root : Xml),
        findDesc (XTag.ns "tbl") root ≠ [] →
        tblLookup_dong root = findDesc (XTag.ns "tbl") root) ∧
    (∀ (e : Xml), allUnq e = true →
        extract_text_from_element (qualify e) = extract_text_from_element e ∧
          get_text (qualify e) = get_text e) := by
  refine ⟨?_, ?_, ?_⟩
  · intro parent tag h
    unfold find_elements
    rw [if_neg (by simpa [List.isEmpty_iff] using h)]
  · intro root h
    unfold tblLookup_dong
    rw [if_neg (by simpa [List.isEmpty_iff] using h)]
  · intro e h
    constructor
    · unfold extract_text_from_element
      rw [findDesc_qualify_unq, findDesc_qualify_ns _ _ h, findDesc_ns_of_allUnq _ _ h]
      simp [List.filterMap_map, Function.comp_def, elemText_qualify]
    · have hfe : find_elements (qualify e) "t" = (findDesc (XTag.unq "t") e).map qualify := by
        unfold find_elements
        rw [findDesc_qualify_unq]
        simpa using findDesc_qualify_ns "t" e h
      unfold get_text
      rw [hfe]
      by_cases hu : findDesc (XTag.unq "t") e = []
      · rw [hu]
        unfold find_elements
        rw [if_pos (by simp [hu]), findDesc_ns_of_allUnq _ _ h]
        simp
      · unfold find_elements
        rw [if_neg (by simpa [List.isEmpty_iff] using hu)]
        simp [List.filterMap_map, Function.comp_def, elemText_qualify]

/-- C2 (witness): the lookup orders and the single-form tolerance at concrete
elements. -/
theorem C2_witness :
    find_elements (Xml.elem (XTag.unq "p") none [Xml.elem (XTag.unq "t") (some "본문") []]) "t" =
        findDesc (XTag.unq "t")
          (Xml.elem (XTag.unq "p") none [Xml.elem (XTag.unq "t") (some "본문") []]) ∧
      tblLookup_dong (Xml.elem (XTag.unq "r") none [Xml.elem (XTag.ns "tbl") none []]) =
        findDesc (XTag.ns "tbl")
          (Xml.elem (XTag.unq "r") none [Xml.elem (XTag.ns "tbl") none []]) ∧
      extract_text_from_element
          (qualify (Xml.elem (XTag.unq "tc") none [Xml.elem (XTag.unq "t") (some "본문") []])) =
        extract_text_from_element
          (Xml.elem (XTag.unq "tc") none [Xml.elem (XTag.unq "t") (some "본문") []]) ∧
      get_text
          (qualify (Xml.elem (XTag.unq "tc") none [Xml.elem (XTag.unq "t") (some "본문") []])) =
        get_text (Xml.elem (XTag.unq "tc") none [Xml.elem (XTag.unq "t") (some "본문") []]) :=
  ⟨C2_ns_lookup.1 _ "t" (List.cons_ne_nil _ _),
    C2_ns_lookup.2.1 _ (List.cons_ne_nil _ _),
    (C2_ns_lookup.2.2 (Xml.elem (XTag.unq "tc") none
        [Xml.elem (XTag.unq "t") (some "본문") []]) rfl).1,
    (C2_ns_lookup.2.2 (Xml.elem (XTag.unq "tc") none
        [Xml.elem (XTag.unq "t") (some "본문") []]) rfl).2⟩
